import Mathlib

/-!
# Formal model of the FormaliZESE landing-page scripts

Shallow embedding of the two client-side scripts of the repository:
the main enhancement bundle (`PerformanceMonitor`, `SmartFormLoader`,
`AnimationManager`, `ScrollAnimations`, `handleFormMessage`,
`showNotification`) and the secondary page script (`updateCountdown`).

DOM state is made explicit: the body's class list is a `List String`
with `classList.add` / `classList.remove` semantics, JavaScript `Map`s
become insertion-ordered association lists, timers and browser events
become explicit event values folded over a step function.
-/

namespace FormaliZese

/-! ## CONFIG constants (src/unnamed/part_000, lines 10-19) -/

def MAX_CONCURRENT_ANIMATIONS : Nat := 3

def FORM_LOAD_TIMEOUT : Nat := 10000

def SKELETON_MIN_DISPLAY : Int := 800

/-! ## DOM classList model

`classList.add` appends the token when absent (a DOMTokenList holds no
duplicates); `classList.remove` drops it. -/

def classListAdd (cs : List String) (c : String) : List String :=
  if c ∈ cs then cs else cs ++ [c]

def classListRemove (cs : List String) (c : String) : List String :=
  cs.filter (fun x => x ≠ c)

theorem mem_classListAdd_self (cs : List String) (c : String) :
    c ∈ classListAdd cs c := by
  unfold classListAdd
  by_cases h : c ∈ cs
  · simp [h]
  · simp [h]

theorem not_mem_classListRemove_self (cs : List String) (c : String) :
    c ∉ classListRemove cs c := by
  unfold classListRemove
  simp

theorem mem_classListAdd_other (cs : List String) (c d : String) (h : d ≠ c) :
    (d ∈ classListAdd cs c ↔ d ∈ cs) := by
  unfold classListAdd
  by_cases hc : c ∈ cs
  · simp [hc]
  · simp [hc, h]

theorem mem_classListRemove_other (cs : List String) (c d : String) (h : d ≠ c) :
    (d ∈ classListRemove cs c ↔ d ∈ cs) := by
  unfold classListRemove
  simp [h]

/-! ## PerformanceMonitor: FPS sampler (lines 46-64, 95-102)

`measureFPS` increments `frameCount` each animation frame; once at
least 1000 ms have elapsed since `lastFrameTime` it computes
`fps = Math.round(frameCount * 1000 / (now - lastFrameTime))`,
resets the window, and toggles the body class `reduce-animations`:
added when `fps < 30` (`reduceQuality`), removed when `fps > 50`
(`restoreQuality`), untouched otherwise. -/

structure MonState where
  fps : Nat
  frameCount : Nat
  lastFrameTime : Nat
  bodyClasses : List String
  deriving Repr, DecidableEq

/-- `Math.round (num / den)` for nonnegative integers, `den > 0`:
round half up, i.e. `⌊num/den + 1/2⌋`. -/
def jsRound (num den : Nat) : Nat := (2 * num + den) / (2 * den)

def reduceQuality (cs : List String) : List String :=
  classListAdd cs "reduce-animations"

def restoreQuality (cs : List String) : List String :=
  classListRemove cs "reduce-animations"

def measureFPS (s : MonState) (now : Nat) : MonState :=
  if s.lastFrameTime + 1000 ≤ now then
    if jsRound ((s.frameCount + 1) * 1000) (now - s.lastFrameTime) < 30 then
      { fps := jsRound ((s.frameCount + 1) * 1000) (now - s.lastFrameTime),
        frameCount := 0, lastFrameTime := now,
        bodyClasses := reduceQuality s.bodyClasses }
    else if jsRound ((s.frameCount + 1) * 1000) (now - s.lastFrameTime) > 50 then
      { fps := jsRound ((s.frameCount + 1) * 1000) (now - s.lastFrameTime),
        frameCount := 0, lastFrameTime := now,
        bodyClasses := restoreQuality s.bodyClasses }
    else
      { fps := jsRound ((s.frameCount + 1) * 1000) (now - s.lastFrameTime),
        frameCount := 0, lastFrameTime := now,
        bodyClasses := s.bodyClasses }
  else
    { s with frameCount := s.frameCount + 1 }

end FormaliZese

namespace FormaliZese

/-- **C1.** For every computed FPS sample (i.e. whenever the ~1 s window has
elapsed so that `measureFPS` recomputes `fps`): if the new value is strictly
below 30 the body-level `reduce-animations` class is present afterwards; if it
is strictly above 50 it is absent; and for values in `[30, 50]` the presence
of the class is exactly what it was before the sample. -/
theorem measureFPS_threshold_toggle (s : MonState) (now : Nat)
    (hwin : s.lastFrameTime + 1000 ≤ now) :
    ((measureFPS s now).fps < 30 →
      "reduce-animations" ∈ (measureFPS s now).bodyClasses) ∧
    ((measureFPS s now).fps > 50 →
      "reduce-animations" ∉ (measureFPS s now).bodyClasses) ∧
    (30 ≤ (measureFPS s now).fps → (measureFPS s now).fps ≤ 50 →
      ("reduce-animations" ∈ (measureFPS s now).bodyClasses ↔
        "reduce-animations" ∈ s.bodyClasses)) := by
  unfold measureFPS
  simp only [hwin, if_true]
  split_ifs with h30 h50 <;> dsimp only
  · exact ⟨fun _ => mem_classListAdd_self _ _,
      fun hgt => absurd hgt (by omega),
      fun hge _ => absurd hge (by omega)⟩
  · exact ⟨fun hlt => absurd hlt (by omega),
      fun _ => not_mem_classListRemove_self _ _,
      fun _ hle => absurd hle (by omega)⟩
  · exact ⟨fun hlt => absurd hlt (by omega),
      fun hgt => absurd hgt (by omega),
      fun _ _ => Iff.rfl⟩

/-- Witness for C1: a concrete slow sample (11 frames in 1000 ms gives
`fps = 11 < 30`) on an initially clean body. -/
theorem measureFPS_threshold_toggle_witness :
    (⟨60, 10, 0, []⟩ : MonState).lastFrameTime + 1000 ≤ 1000 ∧
    ((measureFPS ⟨60, 10, 0, []⟩ 1000).fps < 30 →
      "reduce-animations" ∈ (measureFPS ⟨60, 10, 0, []⟩ 1000).bodyClasses) := by
  exact ⟨by decide, (measureFPS_threshold_toggle ⟨60, 10, 0, []⟩ 1000 (by decide)).1⟩

/-! ## PerformanceMonitor: animation registry (lines 117-133)

`animationRegistry` is a JavaScript `Map`, i.e. an insertion-ordered
association list with unique keys: `set` updates an existing key in
place (keeping its position) and otherwise appends; `keys().next().value`
is the first key; `delete` removes the key.  `registerAnimation` evicts
(pauses) the oldest entry when the registry already holds
`MAX_CONCURRENT_ANIMATIONS` entries, then inserts, then refreshes
`metrics.animationsRunning` to the new size.  `pauseAnimation` calls
`pause()` on the stored animation (when present) and deletes the key —
note it does NOT refresh `metrics.animationsRunning`. -/

structure PMSt where
  registry : List (String × Nat)
  animationsRunning : Nat
  pausedCalls : List String
  deriving Repr, DecidableEq

def initPM : PMSt := { registry := [], animationsRunning := 0, pausedCalls := [] }

/-- `Map.set` on an insertion-ordered association list. -/
def mapSet (m : List (String × Nat)) (k : String) (v : Nat) : List (String × Nat) :=
  if m.any (fun p => p.1 == k) then
    m.map (fun p => if p.1 = k then (k, v) else p)
  else m ++ [(k, v)]

def pmPauseAnimation (s : PMSt) (id : String) : PMSt :=
  { registry := s.registry.filter (fun p => p.1 ≠ id),
    animationsRunning := s.animationsRunning,
    pausedCalls :=
      match s.registry.find? (fun p => p.1 == id) with
      | some _ => s.pausedCalls ++ [id]
      | none => s.pausedCalls }

def pmRegisterAnimation (s : PMSt) (id : String) (anim : Nat) : PMSt :=
  let s1 :=
    if MAX_CONCURRENT_ANIMATIONS ≤ s.registry.length then
      match s.registry.head? with
      | some oldest => pmPauseAnimation s oldest.1
      | none => s
    else s
  { registry := mapSet s1.registry id anim,
    animationsRunning := (mapSet s1.registry id anim).length,
    pausedCalls := s1.pausedCalls }

inductive AnimOp
  | register (id : String) (anim : Nat)
  | pause (id : String)

def pmStep (s : PMSt) : AnimOp → PMSt
  | .register id anim => pmRegisterAnimation s id anim
  | .pause id => pmPauseAnimation s id

def runAnimOps (ops : List AnimOp) : PMSt := ops.foldl pmStep initPM

theorem mapSet_length_le (m : List (String × Nat)) (k : String) (v : Nat) :
    (mapSet m k v).length ≤ m.length + 1 := by
  unfold mapSet
  split
  · simp
  · simp

theorem pmRegisterAnimation_length_le (s : PMSt) (id : String) (anim : Nat)
    (h : s.registry.length ≤ MAX_CONCURRENT_ANIMATIONS) :
    (pmRegisterAnimation s id anim).registry.length ≤ MAX_CONCURRENT_ANIMATIONS := by
  unfold pmRegisterAnimation
  dsimp only
  split
  · rename_i hcap
    match hreg : s.registry with
    | [] => simp [hreg, MAX_CONCURRENT_ANIMATIONS] at hcap
    | p :: rest =>
      simp only [hreg, List.head?_cons]
      have hfil : ((p :: rest).filter (fun q => q.1 ≠ p.1)).length ≤ rest.length := by
        have : (p :: rest).filter (fun q => q.1 ≠ p.1) = rest.filter (fun q => q.1 ≠ p.1) := by
          simp [List.filter_cons]
        rw [this]
        exact List.length_filter_le _ _
      have hlen : rest.length + 1 ≤ MAX_CONCURRENT_ANIMATIONS := by
        have := h
        simp [hreg] at this
        omega
      calc (mapSet ((pmPauseAnimation s p.1).registry) id anim).length
          ≤ (pmPauseAnimation s p.1).registry.length + 1 := mapSet_length_le _ _ _
        _ ≤ rest.length + 1 := by
            have : (pmPauseAnimation s p.1).registry.length ≤ rest.length := by
              unfold pmPauseAnimation
              dsimp only
              rw [hreg]
              exact hfil
            omega
        _ ≤ MAX_CONCURRENT_ANIMATIONS := hlen
  · rename_i hcap
    have hlt : s.registry.length < MAX_CONCURRENT_ANIMATIONS := by omega
    calc (mapSet s.registry id anim).length
        ≤ s.registry.length + 1 := mapSet_length_le _ _ _
      _ ≤ MAX_CONCURRENT_ANIMATIONS := by omega

theorem pmStep_length_le (s : PMSt) (op : AnimOp)
    (h : s.registry.length ≤ MAX_CONCURRENT_ANIMATIONS) :
    (pmStep s op).registry.length ≤ MAX_CONCURRENT_ANIMATIONS := by
  cases op with
  | register id anim => exact pmRegisterAnimation_length_le s id anim h
  | pause id =>
      unfold pmStep pmPauseAnimation
      dsimp only
      exact le_trans (List.length_filter_le _ _) h

theorem foldl_pmStep_length_le (ops : List AnimOp) (s : PMSt)
    (h : s.registry.length ≤ MAX_CONCURRENT_ANIMATIONS) :
    (ops.foldl pmStep s).registry.length ≤ MAX_CONCURRENT_ANIMATIONS := by
  induction ops generalizing s with
  | nil => exact h
  | cons op rest ih => exact ih (pmStep s op) (pmStep_length_le s op h)

theorem mem_keys_mapSet (m : List (String × Nat)) (k k' : String) (v : Nat)
    (hk : k' ∈ (mapSet m k v).map Prod.fst) : k' ∈ m.map Prod.fst ∨ k' = k := by
  unfold mapSet at hk
  split at hk
  · rcases List.mem_map.1 hk with ⟨q, hq, hq'⟩
    rcases List.mem_map.1 hq with ⟨p, hp, hp'⟩
    by_cases hcase : p.1 = k
    · right
      rw [← hq', ← hp']
      simp [hcase]
    · left
      refine List.mem_map.2 ⟨p, hp, ?_⟩
      rw [← hq', ← hp']
      simp [hcase]
  · rw [List.map_append] at hk
    rcases List.mem_append.1 hk with h1 | h2
    · exact Or.inl h1
    · right
      simpa using h2

end FormaliZese

namespace FormaliZese

/-- **C4.** Starting from the empty registry, no sequence of
`registerAnimation` / `pauseAnimation` calls ever leaves more than
`MAX_CONCURRENT_ANIMATIONS = 3` entries in the animation registry; and
registering while the registry is at the cap always pauses and evicts the
earliest-inserted entry first: the oldest key is removed from the registry
(when distinct from the key being registered) and its animation receives the
`pause()` call. -/
theorem registerAnimation_cap_fifo :
    (∀ ops : List AnimOp,
      (runAnimOps ops).registry.length ≤ MAX_CONCURRENT_ANIMATIONS) ∧
    (∀ (s : PMSt) (id : String) (anim : Nat) (k : String) (v : Nat),
      s.registry.length = MAX_CONCURRENT_ANIMATIONS →
      s.registry.head? = some (k, v) →
      k ≠ id →
      k ∉ (pmRegisterAnimation s id anim).registry.map Prod.fst ∧
      (pmRegisterAnimation s id anim).pausedCalls = s.pausedCalls ++ [k]) := by
  constructor
  · intro ops
    exact foldl_pmStep_length_le ops initPM (by simp [initPM, MAX_CONCURRENT_ANIMATIONS])
  · intro s id anim k v hlen hhead hne
    match hreg : s.registry with
    | [] => simp [hreg] at hhead
    | p :: rest =>
      have hp : p = (k, v) := by
        rw [hreg] at hhead
        simpa using hhead
      have hcap : MAX_CONCURRENT_ANIMATIONS ≤ ((k, v) :: rest).length := by
        rw [← hp, ← hreg]
        omega
      have hstep : pmRegisterAnimation s id anim =
          { registry := mapSet (pmPauseAnimation s k).registry id anim,
            animationsRunning := (mapSet (pmPauseAnimation s k).registry id anim).length,
            pausedCalls := (pmPauseAnimation s k).pausedCalls } := by
        unfold pmRegisterAnimation
        simp only [hreg, hp, List.head?_cons, hcap, if_true]
      constructor
      · rw [hstep]
        intro hmem
        rcases mem_keys_mapSet _ _ _ _ hmem with hin | heq
        · simp only [pmPauseAnimation] at hin
          rcases List.mem_map.1 hin with ⟨q, hq, hq'⟩
          have := List.of_mem_filter hq
          simp [hq'] at this
        · exact hne heq
      · rw [hstep]
        have hfind : s.registry.find? (fun p => p.1 == k) = some (k, v) := by
          rw [hreg, hp]
          simp [List.find?_cons]
        simp [pmPauseAnimation, hfind]

/-- Witness for C4: four registrations into an initially empty registry stay
at three entries, and with a full registry `[a, b, c]` registering `d` evicts
and pauses `a`. -/
theorem registerAnimation_cap_fifo_witness :
    ((runAnimOps [.register "a" 0, .register "b" 1, .register "c" 2,
        .register "d" 3]).registry.length ≤ MAX_CONCURRENT_ANIMATIONS) ∧
    ("a" ∉ (pmRegisterAnimation ⟨[("a", 0), ("b", 1), ("c", 2)], 3, []⟩
        "d" 3).registry.map Prod.fst ∧
      (pmRegisterAnimation ⟨[("a", 0), ("b", 1), ("c", 2)], 3, []⟩
        "d" 3).pausedCalls = [] ++ ["a"]) :=
  ⟨registerAnimation_cap_fifo.1 _,
    registerAnimation_cap_fifo.2 ⟨[("a", 0), ("b", 1), ("c", 2)], 3, []⟩
      "d" 3 "a" 0 (by decide) (by decide) (by decide)⟩

/-! ## AnimationManager: viewport-gated play state (lines 412-476)

The intersection-observer callback calls `resumeAnimation` when an
element enters the viewport and `pauseAnimation` when it leaves.
`pauseAnimation` sets `animationPlayState = 'paused'` and calls
`performanceMonitor.pauseAnimation(animationId)` unconditionally;
`resumeAnimation` sets `animationPlayState = 'running'` and registers
the animation only when
`performanceMonitor.metrics.animationsRunning < MAX_CONCURRENT_ANIMATIONS`,
and otherwise does nothing.  Elements are identified by a `Nat`; the
set of elements whose inline play state is `running` is a `List Nat`. -/

structure AMState where
  pm : PMSt
  runningElems : List Nat
  deriving Repr, DecidableEq

def styleSetRunning (l : List Nat) (e : Nat) : List Nat :=
  if e ∈ l then l else l ++ [e]

def styleSetPaused (l : List Nat) (e : Nat) : List Nat :=
  l.filter (fun x => x ≠ e)

def amPauseAnimation (s : AMState) (elem : Nat) (animationId : String) : AMState :=
  { pm := pmPauseAnimation s.pm animationId,
    runningElems := styleSetPaused s.runningElems elem }

def amResumeAnimation (s : AMState) (elem : Nat) (animationId : String) : AMState :=
  if s.pm.animationsRunning < MAX_CONCURRENT_ANIMATIONS then
    { pm := pmRegisterAnimation s.pm animationId elem,
      runningElems := styleSetRunning s.runningElems elem }
  else s

inductive ObsEvent
  | enter (elem : Nat) (animationId : String)
  | leave (elem : Nat) (animationId : String)

def amStep (s : AMState) : ObsEvent → AMState
  | .enter e id => amResumeAnimation s e id
  | .leave e id => amPauseAnimation s e id

def initAM : AMState := { pm := initPM, runningElems := [] }

def runObs (evs : List ObsEvent) : AMState := evs.foldl amStep initAM

theorem mem_styleSetRunning_self (l : List Nat) (e : Nat) :
    e ∈ styleSetRunning l e := by
  unfold styleSetRunning
  split <;> simp_all

theorem self_mem_keys_mapSet (m : List (String × Nat)) (k : String) (v : Nat) :
    k ∈ (mapSet m k v).map Prod.fst := by
  unfold mapSet
  split
  · rename_i h
    rcases List.any_eq_true.mp h with ⟨p, hp, hpk⟩
    have hpk' : p.1 = k := by simpa using hpk
    refine List.mem_map.2 ⟨(k, v), List.mem_map.2 ⟨p, hp, ?_⟩, rfl⟩
    simp [hpk']
  · simp

theorem self_mem_keys_pmRegisterAnimation (s : PMSt) (id : String) (anim : Nat) :
    id ∈ (pmRegisterAnimation s id anim).registry.map Prod.fst := by
  unfold pmRegisterAnimation
  dsimp only
  exact self_mem_keys_mapSet _ _ _

/-- The trace refuting the "granted iff fewer than 3 currently active"
reading of the gating contract: fill the budget, then pause everything. -/
def gatingTrace : List ObsEvent :=
  [.enter 1 "a", .enter 2 "b", .enter 3 "c",
   .leave 1 "a", .leave 2 "b", .leave 3 "c"]

end FormaliZese

namespace FormaliZese

/-- **C5, counterexample.** After registering three animations and then
pausing all three (each element left the viewport), the registry is empty and
no element is running — zero animations are currently active — yet a new
activation request (`enter 1 "a"`) is dropped: the element is not set to
running and nothing is registered, because `metrics.animationsRunning` still
reads 3 (`pauseAnimation` never decrements it).  So activation is not granted
"if and only if fewer than `MAX_CONCURRENT_ANIMATIONS` animations are
currently active". -/
theorem resumeAnimation_gating_counterexample :
    (runObs gatingTrace).pm.registry = [] ∧
    (runObs gatingTrace).runningElems = [] ∧
    (runObs gatingTrace).pm.animationsRunning = 3 ∧
    (runObs (gatingTrace ++ [.enter 1 "a"])).runningElems = [] ∧
    (runObs (gatingTrace ++ [.enter 1 "a"])).pm.registry = [] := by
  decide

/-- **C5, amended.** For every observed animated element, leaving the viewport
always pauses it unconditionally; an activation request on entering is granted
(play state set to running and the animation registered) if and only if the
monitor's `animationsRunning` counter is below `MAX_CONCURRENT_ANIMATIONS`
(3), and otherwise the request is dropped and the state is unchanged.  The
counter is the registry size as of the most recent registration and is not
decremented when animations are paused, so it may overstate the number of
currently active animations and lead to requests being dropped while fewer
than 3 are active. -/
theorem animation_gating_amended :
    (∀ (s : AMState) (e : Nat) (id : String),
      e ∉ (amPauseAnimation s e id).runningElems) ∧
    (∀ (s : AMState) (e : Nat) (id : String),
      (s.pm.animationsRunning < MAX_CONCURRENT_ANIMATIONS →
        e ∈ (amResumeAnimation s e id).runningElems ∧
        id ∈ (amResumeAnimation s e id).pm.registry.map Prod.fst) ∧
      (MAX_CONCURRENT_ANIMATIONS ≤ s.pm.animationsRunning →
        amResumeAnimation s e id = s)) ∧
    (∀ (s : PMSt) (id : String),
      (pmPauseAnimation s id).animationsRunning = s.animationsRunning) := by
  refine ⟨fun s e id => ?_, fun s e id => ⟨fun hlt => ?_, fun hge => ?_⟩,
    fun s id => rfl⟩
  · unfold amPauseAnimation styleSetPaused
    simp
  · unfold amResumeAnimation
    simp only [hlt, if_true]
    exact ⟨mem_styleSetRunning_self _ _, self_mem_keys_pmRegisterAnimation _ _ _⟩
  · unfold amResumeAnimation
    have : ¬ s.pm.animationsRunning < MAX_CONCURRENT_ANIMATIONS := by omega
    simp [this]

/-- Witness for the amended C5: a pause on a fresh state, a granted request on
the empty state, and a dropped request on a state whose counter is stale at 3
— each obtained from `animation_gating_amended` at concrete inputs. -/
theorem animation_gating_amended_witness :
    (1 ∉ (amPauseAnimation initAM 1 "a").runningElems) ∧
    (initAM.pm.animationsRunning < MAX_CONCURRENT_ANIMATIONS ∧
      1 ∈ (amResumeAnimation initAM 1 "a").runningElems) ∧
    (MAX_CONCURRENT_ANIMATIONS ≤ (⟨⟨[], 3, []⟩, []⟩ : AMState).pm.animationsRunning ∧
      amResumeAnimation ⟨⟨[], 3, []⟩, []⟩ 1 "a" = ⟨⟨[], 3, []⟩, []⟩) :=
  ⟨animation_gating_amended.1 initAM 1 "a",
   ⟨by decide, ((animation_gating_amended.2.1 initAM 1 "a").1 (by decide)).1⟩,
   ⟨by decide, (animation_gating_amended.2.1 ⟨⟨[], 3, []⟩, []⟩ 1 "a").2 (by decide)⟩⟩

/-! ## SmartFormLoader (lines 156-392)

`loadForm` records a start time, arms one `setTimeout` of
`FORM_LOAD_TIMEOUT` ms that calls `handleError` when the iframe is not
yet loaded, and installs `load` / `error` listeners.  `handleError`
increments `loadAttempts`; below `maxAttempts` it schedules `retryLoad`
(2000 ms), otherwise it renders `showErrorState` (terminal message with
a reload button).  `retryLoad` swaps the skeleton text to "Reintentando"
and reassigns `iframe.src` (a fresh network attempt) — it does NOT arm a
new load timeout.  The `load` listener clears the timeout and runs
`handleLoad`.

The model is an explicit event machine: `errFired` / `loadFired` are
the iframe's events, `retryFired` is a scheduled retry timer firing,
`timeoutFired` is the armed load timeout firing.  `netAttempts` counts
network loads (the initial one plus each `src` reassignment),
`timeoutArms` counts how many times a load timeout was armed,
`errorShown` counts `showErrorState` calls. -/

def maxAttempts : Nat := 3

inductive SkeletonContent
  | normal
  | retrying
  | errorWithReload
  deriving Repr, DecidableEq

structure LoaderState where
  loadAttempts : Nat
  isLoaded : Bool
  timeoutArmed : Bool
  timeoutArms : Nat
  pendingRetries : Nat
  retryCalls : Nat
  errorShown : Nat
  netAttempts : Nat
  skeleton : SkeletonContent
  deriving Repr, DecidableEq

/-- State right after `init` / `loadForm`: one load under way, the single
load timeout armed. -/
def initLoader : LoaderState :=
  { loadAttempts := 0, isLoaded := false,
    timeoutArmed := true, timeoutArms := 1,
    pendingRetries := 0, retryCalls := 0,
    errorShown := 0, netAttempts := 1, skeleton := .normal }

def handleError (s : LoaderState) : LoaderState :=
  if s.loadAttempts + 1 < maxAttempts then
    { s with loadAttempts := s.loadAttempts + 1,
             pendingRetries := s.pendingRetries + 1 }
  else
    { s with loadAttempts := s.loadAttempts + 1,
             errorShown := s.errorShown + 1,
             skeleton := .errorWithReload }

def handleLoad (s : LoaderState) : LoaderState :=
  { s with isLoaded := true }

def retryLoad (s : LoaderState) : LoaderState :=
  { s with retryCalls := s.retryCalls + 1,
           netAttempts := s.netAttempts + 1,
           skeleton :=
             if s.skeleton = SkeletonContent.errorWithReload then s.skeleton
             else SkeletonContent.retrying }

inductive LoadEv
  | errFired
  | loadFired
  | retryFired
  | timeoutFired
  deriving Repr, DecidableEq

def loaderStep (s : LoaderState) : LoadEv → LoaderState
  | .errFired => handleError s
  | .loadFired => handleLoad { s with timeoutArmed := false }
  | .retryFired =>
      if 0 < s.pendingRetries then
        retryLoad { s with pendingRetries := s.pendingRetries - 1 }
      else s
  | .timeoutFired =>
      if s.timeoutArmed then
        if s.isLoaded then { s with timeoutArmed := false }
        else handleError { s with timeoutArmed := false }
      else s

def runLoader (evs : List LoadEv) : LoaderState := evs.foldl loaderStep initLoader

/-- Three consecutive iframe load failures within the timeout window, each
scheduled retry firing before the next failure. -/
def threeFailures : List LoadEv :=
  [.errFired, .retryFired, .errFired, .retryFired, .errFired]

theorem loaderStep_exhausted (s : LoaderState) (e : LoadEv)
    (h2 : 2 ≤ s.loadAttempts) (hp : s.pendingRetries = 0) :
    (loaderStep s e).retryCalls = s.retryCalls ∧
    (loaderStep s e).netAttempts = s.netAttempts ∧
    2 ≤ (loaderStep s e).loadAttempts ∧
    (loaderStep s e).pendingRetries = 0 := by
  have hmax : ¬ s.loadAttempts + 1 < maxAttempts := by
    unfold maxAttempts
    omega
  cases e with
  | errFired =>
      simp only [loaderStep]
      unfold handleError
      simp [hmax]
      omega
  | loadFired =>
      simp only [loaderStep]
      exact ⟨rfl, rfl, h2, hp⟩
  | retryFired =>
      simp only [loaderStep]
      rw [if_neg (by omega)]
      exact ⟨rfl, rfl, h2, hp⟩
  | timeoutFired =>
      simp only [loaderStep]
      split
      · split
        · exact ⟨rfl, rfl, h2, hp⟩
        · unfold handleError
          simp [hmax]
          omega
      · exact ⟨rfl, rfl, h2, hp⟩

theorem foldl_loaderStep_exhausted (evs : List LoadEv) (s : LoaderState)
    (h2 : 2 ≤ s.loadAttempts) (hp : s.pendingRetries = 0) :
    (evs.foldl loaderStep s).retryCalls = s.retryCalls ∧
    (evs.foldl loaderStep s).netAttempts = s.netAttempts := by
  induction evs generalizing s with
  | nil => exact ⟨rfl, rfl⟩
  | cons e rest ih =>
      have h := loaderStep_exhausted s e h2 hp
      have := ih (loaderStep s e) h.2.2.1 h.2.2.2
      simp only [List.foldl_cons]
      omega

end FormaliZese

namespace FormaliZese

/-- **C2, counterexample.** With three consecutive iframe load failures
within the timeout window, `retryLoad` runs exactly 2 times, not 3 (the
third failure exhausts `maxAttempts = 3` counting the initial attempt); and
the terminal failure state is not reached exactly once: the load timeout
armed by `loadForm` is never cleared on the error path, so when it fires
after the third failure it triggers a fourth `handleError` and renders the
error state a second time. -/
theorem formLoader_retry_counterexample :
    (runLoader threeFailures).retryCalls = 2 ∧
    (runLoader threeFailures).errorShown = 1 ∧
    (runLoader (threeFailures ++ [.timeoutFired])).errorShown = 2 := by
  decide

/-- **C2, amended.** Three consecutive iframe load failures within the
timeout window produce exactly 2 `retryLoad` calls — 3 total load attempts
counting the initial one — after which the terminal failure message with its
reload affordance has been rendered; no sequence of further events ever
causes another retry or network load attempt (though the stale load timeout
can re-render the already-terminal error state once more). -/
theorem formLoader_three_failures_amended :
    (runLoader threeFailures).retryCalls = 2 ∧
    (runLoader threeFailures).netAttempts = 3 ∧
    (runLoader threeFailures).errorShown = 1 ∧
    (runLoader threeFailures).skeleton = SkeletonContent.errorWithReload ∧
    (∀ evs : List LoadEv,
      (evs.foldl loaderStep (runLoader threeFailures)).retryCalls = 2 ∧
      (evs.foldl loaderStep (runLoader threeFailures)).netAttempts = 3) := by
  refine ⟨by decide, by decide, by decide, by decide, fun evs => ?_⟩
  have h := foldl_loaderStep_exhausted evs (runLoader threeFailures)
    (by decide) (by decide)
  have h1 : (runLoader threeFailures).retryCalls = 2 := by decide
  have h2 : (runLoader threeFailures).netAttempts = 3 := by decide
  omega

/-- **C6, counterexample.** After the first attempt fails and the scheduled
retry starts a second load attempt, two network attempts have begun but a
load timeout has been armed only once (by the initial `loadForm`):
`retryLoad` arms no new timeout, so the second attempt does not get a fresh
`FORM_LOAD_TIMEOUT` deadline. -/
theorem formLoader_timeout_counterexample :
    (runLoader [.errFired, .retryFired]).netAttempts = 2 ∧
    (runLoader [.errFired, .retryFired]).timeoutArms = 1 := by
  decide

theorem loaderStep_timeoutArms (s : LoaderState) (e : LoadEv) :
    (loaderStep s e).timeoutArms = s.timeoutArms := by
  cases e with
  | errFired =>
      simp only [loaderStep]
      unfold handleError
      split <;> rfl
  | loadFired => rfl
  | retryFired =>
      simp only [loaderStep]
      split
      · unfold retryLoad
        rfl
      · rfl
  | timeoutFired =>
      simp only [loaderStep]
      split
      · split
        · rfl
        · unfold handleError
          split <;> rfl
      · rfl

/-- **C6, amended.** The form loader's load timeout is a single fixed
wall-clock deadline armed exactly once, when `loadForm` starts the initial
attempt; no event — in particular no retry — ever arms another one, so
retries run under the original deadline (or none once it has fired) rather
than under a fresh `FORM_LOAD_TIMEOUT` deadline per attempt. -/
theorem formLoader_single_timeout_amended :
    ∀ evs : List LoadEv, (runLoader evs).timeoutArms = 1 := by
  intro evs
  unfold runLoader
  have : ∀ (l : List LoadEv) (s : LoaderState),
      (l.foldl loaderStep s).timeoutArms = s.timeoutArms := by
    intro l
    induction l with
    | nil => intro s; rfl
    | cons e rest ih =>
        intro s
        simp only [List.foldl_cons]
        rw [ih (loaderStep s e), loaderStep_timeoutArms]
  rw [this]
  rfl

/-! ## Skeleton minimum-display arithmetic (lines 16, 285-305)

On iframe load success, `handleLoad` computes
`loadTime = Date.now() - startTime` and delays the skeleton removal by
`Math.max(0, CONFIG.SKELETON_MIN_DISPLAY - loadTime)` milliseconds, so
the removal is scheduled `loadTime + max(0, 800 - loadTime)` ms after
the load was started. -/

def minDisplayTime (loadTime : Int) : Int :=
  max 0 (SKELETON_MIN_DISPLAY - loadTime)

def skeletonRemovalElapsed (loadTime : Int) : Int :=
  loadTime + minDisplayTime loadTime

/-- **C3.** For every successful iframe load, the skeleton removal is
scheduled with delay `max(0, SKELETON_MIN_DISPLAY - loadTime)`, so whenever
the load took at most `SKELETON_MIN_DISPLAY = 800` ms (including a 0 ms
load) the start-to-removal time is at least 800 ms. -/
theorem skeleton_min_display (loadTime : Int) (_h0 : 0 ≤ loadTime)
    (hle : loadTime ≤ SKELETON_MIN_DISPLAY) :
    SKELETON_MIN_DISPLAY ≤ skeletonRemovalElapsed loadTime := by
  have hnn : (0 : Int) ≤ SKELETON_MIN_DISPLAY - loadTime := by omega
  unfold skeletonRemovalElapsed minDisplayTime
  rw [max_eq_right hnn]
  omega

/-- Witness for C3: an instantaneous (0 ms) load still keeps the skeleton
for the full 800 ms. -/
theorem skeleton_min_display_witness :
    (0 : Int) ≤ 0 ∧ (0 : Int) ≤ SKELETON_MIN_DISPLAY ∧
    SKELETON_MIN_DISPLAY ≤ skeletonRemovalElapsed 0 :=
  ⟨le_refl 0, by decide, skeleton_min_display 0 (le_refl 0) (by decide)⟩

/-! ## ScrollAnimations: stagger-on-reveal (lines 666-714)

The observer callback runs `entries.forEach((entry, index) => ...)`:
for an intersecting entry whose target is not yet in
`animatedElements`, it schedules (after `index * 50` ms) the addition
of the `visible` class and the insertion into `animatedElements`, and
immediately unobserves the target.  Elements are `Nat`s; `observed` is
the set of currently observed elements, `animated` the
`animatedElements` set, `scheduled` the append-only log of
`(element, delay)` schedulings.

A delivered batch is a list of `(element, isIntersecting)` records;
a batch is valid when the observer could deliver it: one coalesced
record per observed target (no duplicate targets, all targets observed
at delivery time).  `fire el` is a scheduled stagger timeout firing. -/

structure ScrollState where
  observed : List Nat
  animated : List Nat
  scheduled : List (Nat × Nat)
  deriving Repr, DecidableEq

def processEntry (s : ScrollState) (ie : Nat × (Nat × Bool)) : ScrollState :=
  if ie.2.2 ∧ ie.2.1 ∉ s.animated then
    { s with scheduled := s.scheduled ++ [(ie.2.1, ie.1 * 50)],
             observed := s.observed.filter (fun x => x ≠ ie.2.1) }
  else s

inductive ScrollEv
  | batch (entries : List (Nat × Bool))
  | fire (elem : Nat)

def scrollStep (s : ScrollState) : ScrollEv → ScrollState
  | .batch es => es.enum.foldl processEntry s
  | .fire el =>
      { s with animated := if el ∈ s.animated then s.animated else s.animated ++ [el] }

def validEv (s : ScrollState) : ScrollEv → Bool
  | .batch es => decide (es.map Prod.fst).Nodup &&
      es.all (fun e => decide (e.1 ∈ s.observed))
  | .fire _ => true

def validTrace (s : ScrollState) : List ScrollEv → Bool
  | [] => true
  | e :: rest => validEv s e && validTrace (scrollStep s e) rest

def initScroll (obs : List Nat) : ScrollState :=
  { observed := obs, animated := [], scheduled := [] }

def runScroll (obs : List Nat) (evs : List ScrollEv) : ScrollState :=
  evs.foldl scrollStep (initScroll obs)

/-- Number of times the `visible` transition has been scheduled for `el`. -/
def schedCount (s : ScrollState) (el : Nat) : Nat :=
  (s.scheduled.filter (fun p => p.1 = el)).length

/-- The once-only invariant: no element has been scheduled twice, and a
scheduled element is no longer observed. -/
def ScrollInv (s : ScrollState) : Prop :=
  ∀ el, schedCount s el ≤ 1 ∧ (1 ≤ schedCount s el → el ∉ s.observed)

theorem schedCount_append (sch : List (Nat × Nat)) (a d el : Nat) :
    ((sch ++ [(a, d)]).filter (fun p => p.1 = el)).length =
      (sch.filter (fun p => p.1 = el)).length + (if a = el then 1 else 0) := by
  rw [List.filter_append]
  by_cases h : a = el
  · simp [h]
  · simp [h]

theorem processEntries_inv (l : List (Nat × (Nat × Bool))) (s : ScrollState)
    (hP : ScrollInv s)
    (hnd : (l.map (fun ie => ie.2.1)).Nodup)
    (hobs : ∀ ie ∈ l, ie.2.1 ∈ s.observed) :
    ScrollInv (l.foldl processEntry s) := by
  induction l generalizing s with
  | nil => exact hP
  | cons ie rest ih =>
      simp only [List.map_cons, List.nodup_cons] at hnd
      have hobs0 : ie.2.1 ∈ s.observed := hobs ie (List.mem_cons_self _ _)
      simp only [List.foldl_cons]
      by_cases hcond : (ie.2.2 : Prop) ∧ ie.2.1 ∉ s.animated
      · have hstep : processEntry s ie =
            { s with scheduled := s.scheduled ++ [(ie.2.1, ie.1 * 50)],
                     observed := s.observed.filter (fun x => x ≠ ie.2.1) } := by
          unfold processEntry
          rw [if_pos hcond]
        apply ih
        · -- the invariant survives scheduling ie
          intro el
          rw [hstep]
          unfold schedCount
          dsimp only
          rw [schedCount_append]
          rcases hP el with ⟨hle, himp⟩
          have hle' : (s.scheduled.filter (fun p => p.1 = el)).length ≤ 1 := hle
          have himp' : 1 ≤ (s.scheduled.filter (fun p => p.1 = el)).length →
              el ∉ s.observed := himp
          by_cases he : ie.2.1 = el
          · subst he
            have hzero : (s.scheduled.filter (fun p => p.1 = ie.2.1)).length = 0 := by
              by_contra hne
              exact himp' (by omega) hobs0
            rw [hzero, if_pos rfl]
            refine ⟨by omega, fun _ => ?_⟩
            simp
          · rw [if_neg he]
            refine ⟨by omega, fun h1 => ?_⟩
            intro hmem
            exact himp' (by omega) (List.mem_of_mem_filter hmem)
        · exact hnd.2
        · -- remaining entries are still observed after the filter
          intro je hje
          rw [hstep]
          dsimp only
          refine List.mem_filter.2 ⟨hobs je (List.mem_cons_of_mem _ hje), ?_⟩
          have : je.2.1 ≠ ie.2.1 := by
            intro heq
            exact hnd.1 (heq ▸ List.mem_map_of_mem (fun ke => ke.2.1) hje)
          simp [this]
      · have hstep : processEntry s ie = s := by
          unfold processEntry
          rw [if_neg hcond]
        rw [hstep]
        exact ih s hP hnd.2 (fun je hje => hobs je (List.mem_cons_of_mem _ hje))

theorem scrollStep_inv (s : ScrollState) (e : ScrollEv)
    (hP : ScrollInv s) (hv : validEv s e = true) : ScrollInv (scrollStep s e) := by
  cases e with
  | batch es =>
      simp only [validEv, Bool.and_eq_true, decide_eq_true_eq, List.all_eq_true] at hv
      simp only [scrollStep]
      apply processEntries_inv es.enum s hP
      · have hmap : es.enum.map (fun ie => ie.2.1) = es.map Prod.fst := by
          have h1 : es.enum.map (fun ie => ie.2.1) =
              (es.enum.map Prod.snd).map Prod.fst := by
            rw [List.map_map]
            rfl
          rw [h1, List.enum_map_snd]
        rw [hmap]
        exact hv.1
      · intro ie hie
        have : ie.2 ∈ es.enum.map Prod.snd := List.mem_map_of_mem Prod.snd hie
        rw [List.enum_map_snd] at this
        have := hv.2 ie.2 this
        simpa using this
  | fire el =>
      intro e'
      rcases hP e' with ⟨h1, h2⟩
      exact ⟨h1, h2⟩

theorem validTrace_inv (evs : List ScrollEv) (s : ScrollState)
    (hP : ScrollInv s) (hv : validTrace s evs = true) :
    ScrollInv (evs.foldl scrollStep s) := by
  induction evs generalizing s with
  | nil => exact hP
  | cons e rest ih =>
      simp only [validTrace, Bool.and_eq_true] at hv
      simp only [List.foldl_cons]
      exact ih (scrollStep s e) (scrollStep_inv s e hP hv.1) hv.2

theorem processEntry_scheduled_shape (s : ScrollState) (ie : Nat × (Nat × Bool)) :
    ∀ p ∈ (processEntry s ie).scheduled, p ∈ s.scheduled ∨ ∃ i, p.2 = i * 50 := by
  intro p hp
  unfold processEntry at hp
  split at hp
  · dsimp only at hp
    rcases List.mem_append.1 hp with h | h
    · exact Or.inl h
    · right
      refine ⟨ie.1, ?_⟩
      simp at h
      rw [h]
  · exact Or.inl hp

theorem scheduled_shape (evs : List ScrollEv) (s : ScrollState) :
    ∀ p ∈ (evs.foldl scrollStep s).scheduled,
      p ∈ s.scheduled ∨ ∃ i, p.2 = i * 50 := by
  induction evs generalizing s with
  | nil => exact fun p hp => Or.inl hp
  | cons e rest ih =>
      intro p hp
      simp only [List.foldl_cons] at hp
      rcases ih (scrollStep s e) p hp with hin | hsh
      · cases e with
        | batch es =>
            simp only [scrollStep] at hin
            -- peel the inner fold
            have : ∀ (l : List (Nat × (Nat × Bool))) (t : ScrollState),
                p ∈ (l.foldl processEntry t).scheduled →
                p ∈ t.scheduled ∨ ∃ i, p.2 = i * 50 := by
              intro l
              induction l with
              | nil => exact fun t ht => Or.inl ht
              | cons je jrest jih =>
                  intro t ht
                  simp only [List.foldl_cons] at ht
                  rcases jih (processEntry t je) ht with h | h
                  · exact processEntry_scheduled_shape t je p h
                  · exact Or.inr h
            exact this es.enum s hin
        | fire el =>
            exact Or.inl hin
      · exact Or.inr hsh

end FormaliZese

namespace FormaliZese

/-- **C7.** Over any valid observer trace from the initial state (a set of
observed elements, nothing yet animated or scheduled), every element has its
`visible`-class transition scheduled at most once — even across repeated
viewport entries and exits — because the element is unobserved on its first
intersection and a valid observer never again delivers records for an
unobserved target; moreover every scheduled transition carries a stagger
delay of `index * 50` ms for some batch index. -/
theorem scroll_visible_at_most_once (obs : List Nat) (evs : List ScrollEv)
    (hv : validTrace (initScroll obs) evs = true) :
    (∀ el, schedCount (runScroll obs evs) el ≤ 1) ∧
    (∀ p ∈ (runScroll obs evs).scheduled, ∃ i, p.2 = i * 50) := by
  constructor
  · intro el
    have hinit : ScrollInv (initScroll obs) := by
      intro el'
      unfold schedCount initScroll
      simp
    exact (validTrace_inv evs (initScroll obs) hinit hv el).1
  · intro p hp
    rcases scheduled_shape evs (initScroll obs) p hp with h | h
    · simp [initScroll] at h
    · exact h

/-- Witness for C7: element 1 intersects in the first batch (scheduled with
delay 0, unobserved), its timeout fires, and element 2 intersects later with
batch index 1 (delay 50); element 1 is scheduled exactly once. -/
theorem scroll_visible_at_most_once_witness :
    validTrace (initScroll [1, 2]) [.batch [(1, true)], .fire 1,
      .batch [(3, false), (2, true)]] = false ∧
    validTrace (initScroll [1, 2]) [.batch [(1, true)], .fire 1,
      .batch [(2, true)]] = true ∧
    schedCount (runScroll [1, 2] [.batch [(1, true)], .fire 1,
      .batch [(2, true)]]) 1 ≤ 1 :=
  ⟨by decide, by decide,
    (scroll_visible_at_most_once [1, 2] [.batch [(1, true)], .fire 1,
      .batch [(2, true)]] (by decide)).1 1⟩

/-! ## Cross-frame message handler (lines 750-770)

`handleFormMessage` returns early unless
`event.origin.includes('leadconnectorhq.com')`; on a payload with
truthy `event.data` and `event.data.type === 'form-submitted'` it shows
a success notification and, only when the global `gtag` function is
defined, reports a `form_submit` analytics event.  The observable
effects are modelled as an options record. -/

structure MsgEvent where
  origin : String
  hasData : Bool
  dataType : Option String
  deriving Repr, DecidableEq

structure MsgEffects where
  notification : Option (String × String)
  analytics : Option (String × String)
  deriving Repr, DecidableEq

def noEffects : MsgEffects := { notification := none, analytics := none }

/-- Character-list prefix test, for `String.includes`. -/
def charsPrefixOf : List Char → List Char → Bool
  | [], _ => true
  | _ :: _, [] => false
  | a :: as, b :: bs => a == b && charsPrefixOf as bs

/-- Character-list substring test, for `String.includes`. -/
def charsContains (needle : List Char) : List Char → Bool
  | [] => needle.isEmpty
  | b :: t => charsPrefixOf needle (b :: t) || charsContains needle t

/-- `event.origin.includes('leadconnectorhq.com')`. -/
def trustedOrigin (origin : String) : Bool :=
  charsContains "leadconnectorhq.com".data origin.data

def handleFormMessage (e : MsgEvent) (gtagDefined : Bool) : MsgEffects :=
  if trustedOrigin e.origin = false then noEffects
  else if e.hasData = true ∧ e.dataType = some "form-submitted" then
    { notification :=
        some ("¡Información recibida! Te contactaremos en menos de 24 horas.",
          "success"),
      analytics :=
        if gtagDefined then some ("form_submit", "consultation_form") else none }
  else noEffects

end FormaliZese

namespace FormaliZese

/-- **C8.** The cross-frame message handler acts only when the event origin
contains the trusted substring `leadconnectorhq.com` and the payload has the
recognized shape (truthy `data` with `data.type === 'form-submitted'`); in
that case it shows the success notification, and it reports the analytics
event exactly when the global `gtag` function is defined; in every other
case it does nothing. -/
theorem handleFormMessage_gating (e : MsgEvent) (g : Bool) :
    (trustedOrigin e.origin = false → handleFormMessage e g = noEffects) ∧
    (trustedOrigin e.origin = true → e.hasData = true →
      e.dataType = some "form-submitted" →
      (handleFormMessage e g).notification =
        some ("¡Información recibida! Te contactaremos en menos de 24 horas.",
          "success") ∧
      (handleFormMessage e g).analytics.isSome = g) ∧
    (trustedOrigin e.origin = true →
      ¬ (e.hasData = true ∧ e.dataType = some "form-submitted") →
      handleFormMessage e g = noEffects) := by
  refine ⟨fun hf => ?_, fun ht hd hty => ?_, fun ht hn => ?_⟩
  · unfold handleFormMessage
    rw [if_pos hf]
  · unfold handleFormMessage
    rw [if_neg (by simp [ht]), if_pos ⟨hd, hty⟩]
    refine ⟨rfl, ?_⟩
    cases g <;> simp
  · unfold handleFormMessage
    rw [if_neg (by simp [ht]), if_neg hn]

/-- Witness for C8: a message from `https://api.leadconnectorhq.com` with the
recognized payload, with `gtag` defined, produces the notification and the
analytics call. -/
theorem handleFormMessage_gating_witness :
    trustedOrigin
        (⟨"https://api.leadconnectorhq.com", true, some "form-submitted"⟩ :
          MsgEvent).origin = true ∧
    ((handleFormMessage
        ⟨"https://api.leadconnectorhq.com", true, some "form-submitted"⟩
        true).notification =
      some ("¡Información recibida! Te contactaremos en menos de 24 horas.",
        "success") ∧
    (handleFormMessage
        ⟨"https://api.leadconnectorhq.com", true, some "form-submitted"⟩
        true).analytics.isSome = true) :=
  ⟨by decide,
    (handleFormMessage_gating
      ⟨"https://api.leadconnectorhq.com", true, some "form-submitted"⟩
      true).2.1 (by decide) rfl rfl⟩

/-! ## Notification system (lines 775-839)

`showNotification` first removes the element returned by
`document.querySelector('.notification')` — the first element carrying
the `notification` class — when one exists, then appends a fresh
element whose class list is `notification notification-${type}`.  The
auto-dismiss timeout and the click handler both remove that element
again.  The document is modelled as the list of element class lists. -/

def removeFirstNotification : List (List String) → List (List String)
  | [] => []
  | el :: rest =>
      if "notification" ∈ el then rest else el :: removeFirstNotification rest

def showNotification (doc : List (List String)) (msgType : String) :
    List (List String) :=
  removeFirstNotification doc ++ [["notification", "notification-" ++ msgType]]

inductive NotifOp
  | showNotif (msgType : String)
  | dismiss

def notifStep (doc : List (List String)) : NotifOp → List (List String)
  | .showNotif t => showNotification doc t
  | .dismiss => removeFirstNotification doc

def runNotif (ops : List NotifOp) : List (List String) :=
  ops.foldl notifStep []

def countNotifs (doc : List (List String)) : Nat :=
  (doc.filter (fun el => "notification" ∈ el)).length

theorem countNotifs_removeFirst_eq_zero (doc : List (List String))
    (h : countNotifs doc ≤ 1) : countNotifs (removeFirstNotification doc) = 0 := by
  induction doc with
  | nil => rfl
  | cons el rest ih =>
      unfold removeFirstNotification
      by_cases hel : "notification" ∈ el
      · rw [if_pos hel]
        unfold countNotifs at h ⊢
        rw [List.filter_cons_of_pos (by simpa using hel)] at h
        simp only [List.length_cons] at h
        omega
      · rw [if_neg hel]
        unfold countNotifs at h ⊢
        rw [List.filter_cons_of_neg (by simpa using hel)] at h
        rw [List.filter_cons_of_neg (by simpa using hel)]
        exact ih h

theorem countNotifs_showNotification (doc : List (List String)) (t : String) :
    countNotifs (showNotification doc t) =
      countNotifs (removeFirstNotification doc) + 1 := by
  unfold showNotification countNotifs
  rw [List.filter_append]
  simp

theorem countNotifs_removeFirst_le (doc : List (List String)) :
    countNotifs (removeFirstNotification doc) ≤ countNotifs doc := by
  induction doc with
  | nil => exact le_refl _
  | cons el rest ih =>
      unfold removeFirstNotification
      by_cases hel : "notification" ∈ el
      · rw [if_pos hel]
        unfold countNotifs
        rw [List.filter_cons_of_pos (by simpa using hel)]
        simp
      · rw [if_neg hel]
        unfold countNotifs at ih ⊢
        rw [List.filter_cons_of_neg (by simpa using hel),
          List.filter_cons_of_neg (by simpa using hel)]
        exact ih

end FormaliZese

namespace FormaliZese

/-- **C9.** At most one notification element exists in the document at any
time: starting from a document with no notification, any sequence of
`showNotification` calls and dismissals keeps the count of `.notification`
elements at most 1, and every `showNotification` call first removes the
existing `.notification` element (when present) and then appends exactly one
new one, regardless of the message or type argument. -/
theorem notification_at_most_one :
    (∀ ops : List NotifOp, countNotifs (runNotif ops) ≤ 1) ∧
    (∀ (doc : List (List String)) (t : String),
      countNotifs (showNotification doc t) =
        countNotifs (removeFirstNotification doc) + 1) := by
  constructor
  · intro ops
    have key : ∀ (l : List NotifOp) (doc : List (List String)),
        countNotifs doc ≤ 1 → countNotifs (l.foldl notifStep doc) ≤ 1 := by
      intro l
      induction l with
      | nil => exact fun doc h => h
      | cons op rest ih =>
          intro doc h
          simp only [List.foldl_cons]
          apply ih
          cases op with
          | showNotif t =>
              simp only [notifStep]
              rw [countNotifs_showNotification,
                countNotifs_removeFirst_eq_zero doc h]
          | dismiss =>
              simp only [notifStep]
              exact le_trans (countNotifs_removeFirst_le doc) h
    exact key ops [] (by decide)
  · exact countNotifs_showNotification

/-! ## Countdown timer (src/js/scripts.js, lines 2-16)

`updateCountdown` computes `distance = tomorrow.getTime() - now` (the
milliseconds until the next local midnight) and renders

  hours   = Math.floor((distance % 86400000) / 3600000)
  minutes = Math.floor((distance % 3600000) / 60000)
  seconds = Math.floor((distance % 60000) / 1000)

each through `toString().padStart(2, '0')`.  JavaScript `%` and
`Math.floor` division agree with Lean's `Int.emod` / `Int.ediv` (the
`%` / `/` below) on the positive operands the claim quantifies over. -/

def countdownHours (distance : Int) : Int :=
  (distance % 86400000) / 3600000

def countdownMinutes (distance : Int) : Int :=
  (distance % 3600000) / 60000

def countdownSeconds (distance : Int) : Int :=
  (distance % 60000) / 1000

/-- `String.prototype.padStart(2, '0')`. -/
def padStart2 (s : String) : String :=
  if s.length < 2 then String.mk (List.replicate (2 - s.length) '0') ++ s else s

def renderUnit (n : Int) : String := padStart2 (toString n)

theorem renderUnit_length_small (n : Nat) (h : n < 60) :
    (renderUnit (n : Int)).length = 2 := by
  revert h
  revert n
  decide

end FormaliZese

namespace FormaliZese

/-- **C10.** For every invocation of the countdown update strictly before the
next local midnight (`0 < distance`), the computed hours lie in `[0, 23]`,
the minutes and seconds lie in `[0, 59]`, and each of the three is rendered
as a string of exactly two characters after zero-padding. -/
theorem updateCountdown_ranges (distance : Int) (_h : 0 < distance) :
    (0 ≤ countdownHours distance ∧ countdownHours distance ≤ 23) ∧
    (0 ≤ countdownMinutes distance ∧ countdownMinutes distance ≤ 59) ∧
    (0 ≤ countdownSeconds distance ∧ countdownSeconds distance ≤ 59) ∧
    (renderUnit (countdownHours distance)).length = 2 ∧
    (renderUnit (countdownMinutes distance)).length = 2 ∧
    (renderUnit (countdownSeconds distance)).length = 2 := by
  have hh : 0 ≤ countdownHours distance ∧ countdownHours distance ≤ 23 := by
    unfold countdownHours
    omega
  have hm : 0 ≤ countdownMinutes distance ∧ countdownMinutes distance ≤ 59 := by
    unfold countdownMinutes
    omega
  have hs : 0 ≤ countdownSeconds distance ∧ countdownSeconds distance ≤ 59 := by
    unfold countdownSeconds
    omega
  refine ⟨hh, hm, hs, ?_, ?_, ?_⟩
  · rw [← Int.toNat_of_nonneg hh.1]
    exact renderUnit_length_small _ (by omega)
  · rw [← Int.toNat_of_nonneg hm.1]
    exact renderUnit_length_small _ (by omega)
  · rw [← Int.toNat_of_nonneg hs.1]
    exact renderUnit_length_small _ (by omega)

/-- Witness for C10: one millisecond before midnight the display reads
23:59:59, each unit two characters wide. -/
theorem updateCountdown_ranges_witness :
    (0 : Int) < 1 ∧ (renderUnit (countdownHours 1)).length = 2 :=
  ⟨by decide, (updateCountdown_ranges 1 (by decide)).2.2.2.1⟩

end FormaliZese
